import Mathlib

/-!
Verification of the `erd` artifact-retrieval tool.

Shallow embedding of the core of the program:
* the credential store (`src/logins.rs`: `Logins::find_login`, `Logins::set_login`,
  `read_logins_file`),
* archive-entry extraction (`src/gitlab.rs`: `get_artifact_gitlab` scan loop,
  `src/main.rs`: `extract_file`),
* the fetch orchestration and content-hash deduplication
  (`src/commands/fetch.rs`: `fetch_single`, `fetch_all`, `get_artifact`),
* the rebuild request sequence (`src/gitlab.rs`: `rebuild_artifact_gitlab`),
* history rendering (`src/gitlab.rs`: `show_history_short`, `show_history_long`).

External effects (filesystem, HTTP, TOML/JSON parsing, SHA-256) are abstracted
into explicit inputs: the filesystem becomes a value describing what a read
would return, remote calls become function parameters, and the hash becomes a
function parameter.  All control flow of the Rust functions is translated
directly.

Rust `String`s are modelled as their character sequences (`List Char`), so
`s.starts_with(p)` becomes `List.isPrefixOf p s` and `s.len()` becomes
`List.length`; byte length and character count agree on emptiness and on the
orderings the code relies on.
-/

namespace Erd

/-- Model of a Rust `String`: its sequence of characters. -/
abbrev Str := List Char

/-- Byte buffers (Rust `Vec<u8>`) are modelled as lists of naturals below 256;
none of the verified properties depend on the bound, so plain `Nat` is used. -/
abbrev Bytes := List Nat

/-- The error type of the program (`ErdError`).  Union of the variants used by
`src/main.rs`, `src/logins.rs` and `src/commands/fetch.rs` (the enum gained
`Deserialize`, `Serialize` and `NoLogin` variants in the `commands` refactor;
the declaration site of that revision is not in the tree, but every variant's
payload is fixed by its construction sites).  Human-readable description
strings attached at construction sites carry no control flow and are modelled
by the underlying data. -/
inductive ErdError where
  | NoSuchArtifact (artifact : Str)
  | NoSuchSource (source : Str)
  | SourceRequestError (url : Str) (desc : Str)
  | InvalidToken (token : Str)
  | IOError (err : Str) (desc : Str)
  | Deserialize (err : Str) (desc : Str)
  | Serialize (err : Str) (desc : Str)
  | NoLogin (sourceUrl : Str)
deriving Repr, DecidableEq

/-- A credential record (`Login` in `src/logins.rs`): URL prefix, username, secret. -/
structure Login where
  url : Str
  username : Str
  password : Str
deriving Repr, DecidableEq

/-- The credential store (`Logins` in `src/logins.rs`): an ordered list of records. -/
structure Logins where
  logins : List Login
deriving Repr, DecidableEq

/-- Loop body of `Logins::find_login`: iterate over the records, keeping
`best_match`/`match_length`.  The Rust code compares and updates with the
length of the *query* url (`url.len()`, not `login.url.len()`), faithfully
reproduced here. -/
def findLoginGo (url : Str) : List Login → Option Login → Nat → Option Login
  | [], best, _ => best
  | l :: rest, best, matchLength =>
    if url.length > matchLength ∧ List.isPrefixOf l.url url then
      findLoginGo url rest (some l) url.length
    else
      findLoginGo url rest best matchLength

/-- `Logins::find_login` (`src/logins.rs` lines 44-57). -/
def Logins.find_login (self : Logins) (url : Str) : Option Login :=
  findLoginGo url self.logins none 0

/-- Recursion of `Logins::set_login` over the record list: replace the first
record whose URL equals `login.url`, returning the previous value, else append
`login` at the end. -/
def setLoginGo (login : Login) : List Login → List Login × Option Login
  | [] => ([login], none)
  | l :: rest =>
    if l.url = login.url then
      (login :: rest, some l)
    else
      match setLoginGo login rest with
      | (rest', prev) => (l :: rest', prev)

/-- `Logins::set_login` (`src/logins.rs` lines 61-69): replace the first record
with an identical URL (returning the previous value) or append. -/
def Logins.set_login (self : Logins) (login : Login) : Logins × Option Login :=
  match setLoginGo login self.logins with
  | (ls, prev) => (⟨ls⟩, prev)

/-- What the filesystem yields for the credential-store path: the file may be
absent, unreadable, or hold text.  This is the input `read_logins_file`
inspects through `file.exists()` and `read_to_string`. -/
inductive FileRead where
  | missing
  | readError (e : Str)
  | content (s : Str)
deriving Repr, DecidableEq

/-- `read_logins_file` (`src/logins.rs` lines 18-28): a missing file yields
`Logins::default()` (the empty store), a failed read maps to `IOError`, and a
read string is handed to the TOML deserializer (modelled by the `parse`
parameter), whose failure maps to `ErdError::Deserialize`. -/
def read_logins_file (path : Str) (file : FileRead)
    (parse : Str → Except Str Logins) : Except ErdError Logins :=
  match file with
  | .missing => .ok ⟨[]⟩
  | .readError e => .error (.IOError e path)
  | .content s =>
    match parse s with
    | .ok logins => .ok logins
    | .error e => .error (.Deserialize e path)

/-- One entry of a zip archive: its name and its decompressed content.  The
archive enumeration order of `ZipArchive::file_names` is the list order. -/
structure ZipEntry where
  name : Str
  data : Bytes
deriving Repr, DecidableEq

/-- `FileData` (`src/main.rs` lines 21-24): output filename plus raw bytes. -/
structure FileData where
  file_name : Str
  data : Bytes
deriving Repr, DecidableEq

/-- Model of Rust `Path::file_name` on an entry name: the last non-empty
`/`-separated segment (trailing separators are ignored, as in Rust); `none`
when there is no such segment.  (`Path::file_name`'s special treatment of a
final `..` component is not modelled; no archive entry of interest has one.) -/
def fileNameComponent? (s : Str) : Option Str :=
  ((s.splitOnP (fun c => c = '/')).filter (fun seg => ¬ seg.isEmpty)).getLast?

/-- `extract_file` (`src/main.rs` lines 369-383): derive the output filename
from the last path segment of `file` (a panic of the original's `.expect` when
there is none is modelled as an error), look the entry up by its exact name
(`ZipArchive::by_name`), and return its content. -/
def extract_file (entries : List ZipEntry) (file : Str) : Except Str FileData :=
  match fileNameComponent? file with
  | none => .error "Could not get filename from path".data
  | some fname =>
    match entries.find? (fun e => e.name = file) with
    | none => .error "file not found".data
    | some e => .ok ⟨fname, e.data⟩

/-- The scan loop of `get_artifact_gitlab` (`src/gitlab.rs` lines 128-137):
walk the entry names in enumeration order and remember every name that ends
with the pattern, so the last match survives. -/
def findJar (pattern : Str) (names : List Str) : Option Str :=
  names.foldl
    (fun found name => if List.isSuffixOf pattern name then some name else found)
    none

/-- `get_artifact_gitlab` (`src/gitlab.rs` lines 118-146), extraction stage:
the downloaded archive is given already parsed as its entry list, and
`artifact.artifact_pattern` as `pattern`.  Scan for the pattern, then extract
the winning entry (extraction failures map to `IOError`); no matching name
yields `none`. -/
def get_artifact_gitlab (entries : List ZipEntry) (pattern : Str) :
    Except ErdError (Option FileData) :=
  match findJar pattern (entries.map ZipEntry.name) with
  | some jarName =>
    match extract_file entries jarName with
    | .ok fd => .ok (some fd)
    | .error e => .error (.IOError e "Failed to extract artifact from zip".data)
  | none => .ok none

/-- `GetArtifactAnswer` (`src/commands/fetch.rs` lines 13-20). -/
inductive GetArtifactAnswer where
  | NotFound
  | NewArtifact (name : Str)
  | UpToDate (name : Str)
deriving Repr, DecidableEq

/-- The nested `is_new` helper of `get_artifact` (`src/commands/fetch.rs`
lines 96-106): a missing output file is new; otherwise the stored file's
SHA-256 digest is compared with the digest of the fetched bytes.  The digest
(`sha256sum_file` / `sha256sum_mem`, `src/main.rs` lines 385-395) is modelled
as an explicit function parameter `hash`; the local output directory as a map
from filename to stored bytes. -/
def is_new (hash : Bytes → Bytes) (store : Str → Option Bytes)
    (name : Str) (data : Bytes) : Bool :=
  match store name with
  | none => true
  | some existing => hash existing ≠ hash data

/-- Deduplication stage of `get_artifact` (`src/commands/fetch.rs` lines
108-127), given the already-downloaded extraction result: `none` classifies as
`NotFound`; otherwise an up-to-date file is left untouched and anything else
is (over)written with the new bytes.  Returns the outcome and the output
directory afterwards. -/
def get_artifact (hash : Bytes → Bytes) (store : Str → Option Bytes)
    (file_data : Option FileData) : GetArtifactAnswer × (Str → Option Bytes) :=
  match file_data with
  | none => (.NotFound, store)
  | some art =>
    if is_new hash store art.file_name art.data then
      (.NewArtifact art.file_name,
        fun n => if n = art.file_name then some art.data else store n)
    else
      (.UpToDate art.file_name, store)

/-- `SourceType` (`src/config/artifacts.rs`, shape fixed by its uses in
`src/main.rs` and `src/commands/*`): the single provider variant. -/
inductive SourceType where
  | Gitlab
deriving Repr, DecidableEq

/-- `ArtifactConfig`: fields as constructed in `src/main.rs` lines 178-183. -/
structure ArtifactConfig where
  id : Str
  project_id : Str
  branch : Str
  artifact_pattern : Str
deriving Repr, DecidableEq

/-- `SourceConfig`: fields as constructed in `src/commands/init.rs` lines
50-55 and read in `src/commands/fetch.rs`. -/
structure SourceConfig where
  id : Str
  url : Str
  kind : SourceType
  artifacts : List ArtifactConfig
deriving Repr, DecidableEq

/-- `Config` (`src/commands/init.rs` lines 56-58): the ordered source list. -/
structure Config where
  sources : List SourceConfig
deriving Repr, DecidableEq

/-- `fetch_single` (`src/commands/fetch.rs` lines 49-61): locate the
(source, artifact) pair by artifact id with `find_map` over the sources, fail
with `NoSuchArtifact` when absent, resolve a credential for the source URL
(failing with `NoLogin`), then fetch.  The whole network-and-write stage
(`get_artifact` with its download) is the function parameter `getArt`, applied
to the artifact, the source kind, the credential's password, and the build
id. -/
def fetch_single
    (getArt : ArtifactConfig → SourceType → Str → Option Str →
      Except ErdError GetArtifactAnswer)
    (config : Config) (logins : Logins) (artId : Str) (buildId : Option Str) :
    Except ErdError GetArtifactAnswer :=
  match config.sources.findSome?
      (fun s => (s.artifacts.find? (fun a => a.id = artId)).map (fun a => (s, a))) with
  | none => .error (.NoSuchArtifact artId)
  | some (s, a) =>
    match logins.find_login s.url with
    | some login => getArt a s.kind login.password buildId
    | none => .error (.NoLogin s.url)

/-- Inner loop of `fetch_all` (`src/commands/fetch.rs` lines 67-75) over one
source's artifacts: resolve the credential for the source URL per artifact,
fetch with `build_id = None`, and record `(artifact.id, answer)`; the `?`
operator propagates the first error. -/
def fetch_all_inner
    (getArt : ArtifactConfig → SourceType → Str → Option Str →
      Except ErdError GetArtifactAnswer)
    (logins : Logins) (s : SourceConfig) :
    List ArtifactConfig → Except ErdError (List (Str × GetArtifactAnswer))
  | [] => .ok []
  | a :: rest =>
    match logins.find_login s.url with
    | none => .error (.NoLogin s.url)
    | some login =>
      match getArt a s.kind login.password none with
      | .error e => .error e
      | .ok answer =>
        match fetch_all_inner getArt logins s rest with
        | .error e => .error e
        | .ok more => .ok ((a.id, answer) :: more)

/-- Outer loop of `fetch_all` over the sources, in configuration order. -/
def fetch_all_outer
    (getArt : ArtifactConfig → SourceType → Str → Option Str →
      Except ErdError GetArtifactAnswer)
    (logins : Logins) :
    List SourceConfig → Except ErdError (List (Str × GetArtifactAnswer))
  | [] => .ok []
  | s :: rest =>
    match fetch_all_inner getArt logins s s.artifacts with
    | .error e => .error e
    | .ok xs =>
      match fetch_all_outer getArt logins rest with
      | .error e => .error e
      | .ok ys => .ok (xs ++ ys)

/-- `fetch_all` (`src/commands/fetch.rs` lines 63-78). -/
def fetch_all
    (getArt : ArtifactConfig → SourceType → Str → Option Str →
      Except ErdError GetArtifactAnswer)
    (config : Config) (logins : Logins) :
    Except ErdError (List (Str × GetArtifactAnswer)) :=
  fetch_all_outer getArt logins config.sources

/-- All (source, artifact) pairs of a configuration, in configuration order:
sources in order, then each source's artifacts in order. -/
def configPairs (config : Config) : List (SourceConfig × ArtifactConfig) :=
  (config.sources.map (fun s => s.artifacts.map (fun a => (s, a)))).flatten

/-- The per-artifact step `fetch_all` performs for a pair: credential
resolution for the source URL followed by the fetch with no build id. -/
def fetchStep
    (getArt : ArtifactConfig → SourceType → Str → Option Str →
      Except ErdError GetArtifactAnswer)
    (logins : Logins) (s : SourceConfig) (a : ArtifactConfig) :
    Except ErdError GetArtifactAnswer :=
  match logins.find_login s.url with
  | none => .error (.NoLogin s.url)
  | some login => getArt a s.kind login.password none

/-- HTTP method of a remote request. -/
inductive Method where
  | get
  | post
deriving Repr, DecidableEq

/-- One remote request: method, URL and query parameters (the uniform
authentication header is elided). -/
structure Request where
  method : Method
  url : Str
  query : List (Str × Str)
deriving Repr, DecidableEq

/-- `JobPipeline` (`src/gitlab.rs` lines 56-63). -/
structure JobPipeline where
  id : Nat
  status : Str
  job_ref : Str
  web_url : Str
deriving Repr, DecidableEq

/-- The pipeline-creation URL of `rebuild_artifact_gitlab` (`src/gitlab.rs`
lines 267-270): `projects/{artifact.project_id}/pipeline`. -/
def create_pipeline_url (projectId : Str) : Str :=
  "https://gitlab.com/api/v4/projects/".data ++ projectId ++ "/pipeline".data

/-- The job-listing URL of `rebuild_artifact_gitlab` (`src/gitlab.rs` lines
282-285), exactly as the code formats it: `projects/{new_pipeline.id}/pipeline`
— the *pipeline* id stands in the URL's project position. -/
def list_jobs_url (pipelineId : Nat) : Str :=
  "https://gitlab.com/api/v4/projects/".data ++ (toString pipelineId).data
    ++ "/pipeline".data

/-- The two remote requests `rebuild_artifact_gitlab` (`src/gitlab.rs` lines
260-313) issues, in order, given the pipeline record the first response
deserializes to: a POST creating a pipeline for the given ref (`build_id`),
then a GET of `list_jobs_url`. -/
def rebuild_requests (artifact : ArtifactConfig) (buildId : Str)
    (newPipeline : JobPipeline) : List Request :=
  [⟨.post, create_pipeline_url artifact.project_id, [("ref".data, buildId)]⟩,
   ⟨.get, list_jobs_url newPipeline.id, []⟩]

/-- `JobCommit` (`src/gitlab.rs` lines 47-55). -/
structure JobCommit where
  id : Str
  short_id : Str
  created_at : Str
  author_email : Str
  title : Str
deriving Repr, DecidableEq

/-- `JobArtifact` (`src/gitlab.rs` lines 66-72). -/
structure JobArtifact where
  file_type : Str
deriving Repr, DecidableEq

/-- `JobHistory` (`src/gitlab.rs` lines 24-37). -/
structure JobHistory where
  id : Nat
  status : Str
  stage : Str
  created_at : Str
  name : Str
  job_ref : Str
  commit : JobCommit
  pipeline : JobPipeline
  artifacts : List JobArtifact
  web_url : Str
deriving Repr, DecidableEq

/-- `MAIN_ARTIFACT_TYPE` (`src/gitlab.rs` line 65). -/
def MAIN_ARTIFACT_TYPE : Str := "archive".data

/-- `JobHistory::get_main_artifact` (`src/gitlab.rs` lines 40-45). -/
def JobHistory.get_main_artifact (self : JobHistory) : Option JobArtifact :=
  self.artifacts.find? (fun a => a.file_type = MAIN_ARTIFACT_TYPE)

/-- `OutputOptions` (`src/output.rs` lines 11-17). -/
structure OutputOptions where
  color : Bool
  short : Bool
deriving Repr, DecidableEq

/-- `JobHistoryOutput` (`src/output.rs` lines 30-42): the record either
history rendering projects a job to. -/
structure JobHistoryOutput where
  id : Str
  job_ref : Str
  timestamp : Str
  status : Str
  has_artifacts : Bool
  web_url : Str
  commit_short_id : Str
  commit_title : Str
  commit_author : Str
  options : OutputOptions
deriving Repr, DecidableEq

/-- `FormatOutput<JobHistoryOutput> for JobHistory` (`src/gitlab.rs` lines
367-383): the common projection both detail levels use. -/
def JobHistory.format_output (self : JobHistory) (options : OutputOptions) :
    JobHistoryOutput :=
  { id := (toString self.id).data
    job_ref := self.job_ref
    timestamp := self.created_at
    status := self.status
    has_artifacts := self.get_main_artifact.isSome
    web_url := self.web_url
    commit_short_id := self.commit.short_id
    commit_title := self.commit.title
    commit_author := self.commit.author_email
    options := options }

/-- The fixed job-name constant (`let job_name = "build"` in
`get_history_gitlab`, `src/gitlab.rs` line 204), passed to both history
renderings. -/
def historyJobName : Str := "build".data

/-- `show_history_long` (`src/gitlab.rs` lines 226-239): the sequence of
rendered records, one per job, with options `{color: true, short: false}`.
The `job_name` argument of the original only feeds the uniform header line,
which is elided. -/
def show_history_long (job_history : List JobHistory) : List JobHistoryOutput :=
  job_history.map (fun job => job.format_output ⟨true, false⟩)

/-- `show_history_short` (`src/gitlab.rs` lines 241-258): skips (`continue`)
every record whose job name differs from `job_name`, rendering the rest with
options `{color: true, short: true}`. -/
def show_history_short (job_name : Str) : List JobHistory → List JobHistoryOutput
  | [] => []
  | entry :: rest =>
    if entry.name ≠ job_name then show_history_short job_name rest
    else entry.format_output ⟨true, true⟩ :: show_history_short job_name rest

/-- Left-to-right collection of per-pair fetch results, short-circuiting on
the first error: the reference shape `fetch_all` is proved equal to. -/
def collect (stp : SourceConfig → ArtifactConfig → Except ErdError GetArtifactAnswer) :
    List (SourceConfig × ArtifactConfig) → Except ErdError (List (Str × GetArtifactAnswer))
  | [] => .ok []
  | sa :: rest =>
    match stp sa.1 sa.2 with
    | .error e => .error e
    | .ok ans =>
      match collect stp rest with
      | .error e => .error e
      | .ok more => .ok ((sa.2.id, ans) :: more)

/-- Sample artifact `a1` of source `s1`. -/
def sampleA1 : ArtifactConfig := ⟨"a1".data, "p1".data, "main".data, "x.jar".data⟩

/-- Sample artifact `a2` of source `s1`. -/
def sampleA2 : ArtifactConfig := ⟨"a2".data, "p2".data, "main".data, "y.jar".data⟩

/-- Sample artifact `b1` of source `s2`. -/
def sampleB1 : ArtifactConfig := ⟨"b1".data, "p3".data, "main".data, "z.jar".data⟩

/-- Sample source `s1` holding `a1` and `a2`. -/
def sampleS1 : SourceConfig := ⟨"s1".data, "u1".data, .Gitlab, [sampleA1, sampleA2]⟩

/-- Sample source `s2` holding `b1`. -/
def sampleS2 : SourceConfig := ⟨"s2".data, "u2".data, .Gitlab, [sampleB1]⟩

/-- Sample configuration with two sources. -/
def sampleConfig : Config := ⟨[sampleS1, sampleS2]⟩

/-- Sample credential store with one credential per sample source URL. -/
def sampleLogins : Logins :=
  ⟨[⟨"u1".data, "u".data, "t1".data⟩, ⟨"u2".data, "u".data, "t2".data⟩]⟩

/-- A per-artifact fetch that always succeeds, tagging the answer with the
artifact id. -/
def fetchOkStub : ArtifactConfig → SourceType → Str → Option Str →
    Except ErdError GetArtifactAnswer :=
  fun a _ _ _ => .ok (.NewArtifact a.id)

/-- A per-artifact fetch failing exactly on artifact `a2`. -/
def fetchFailStub : ArtifactConfig → SourceType → Str → Option Str →
    Except ErdError GetArtifactAnswer :=
  fun a _ _ _ =>
    if a.id = "a2".data then .error (.InvalidToken "bad".data)
    else .ok (.NewArtifact a.id)

/-- Fetch tagging the answer with the project id, to observe which of two
same-id artifacts was selected. -/
def fetchTagStub : ArtifactConfig → SourceType → Str → Option Str →
    Except ErdError GetArtifactAnswer :=
  fun a _ _ _ => .ok (.NewArtifact a.project_id)

/-- Two sources both declaring an artifact with id `d`, distinguishable by
project id. -/
def dupConfig : Config :=
  ⟨[⟨"s1".data, "u1".data, .Gitlab, [⟨"d".data, "pd1".data, "m".data, "j".data⟩]⟩,
    ⟨"s2".data, "u2".data, .Gitlab, [⟨"d".data, "pd2".data, "m".data, "j".data⟩]⟩]⟩

/-! ### Lemmas about the `find_login` loop -/

lemma findLoginGo_stuck (url : Str) (ls : List Login) (best : Option Login)
    (matchLength : Nat) (h : url.length ≤ matchLength) :
    findLoginGo url ls best matchLength = best := by
  induction ls with
  | nil => rfl
  | cons l rest ih =>
    have : ¬ (url.length > matchLength ∧ List.isPrefixOf l.url url) := by
      rintro ⟨hgt, -⟩
      exact absurd h (Nat.not_le_of_gt hgt)
    rw [findLoginGo, if_neg this]
    exact ih

lemma findLoginGo_nonempty (url : Str) (hurl : 0 < url.length) (ls : List Login) :
    findLoginGo url ls none 0 = ls.find? (fun l => List.isPrefixOf l.url url) := by
  induction ls with
  | nil => rfl
  | cons l rest ih =>
    by_cases hpre : List.isPrefixOf l.url url = true
    · rw [findLoginGo, if_pos ⟨hurl, hpre⟩,
        List.find?_cons_of_pos (p := fun x => List.isPrefixOf x.url url) rest hpre]
      exact findLoginGo_stuck url rest (some l) url.length (Nat.le_refl _)
    · have : ¬ (url.length > 0 ∧ List.isPrefixOf l.url url) := by
        rintro ⟨-, hp⟩
        exact hpre hp
      rw [findLoginGo, if_neg this,
        List.find?_cons_of_neg (p := fun x => List.isPrefixOf x.url url) rest
          (by simpa using hpre)]
      exact ih

/-- C10: for a non-empty query URL, `find_login` returns the *first* credential
in store order whose URL is a textual prefix of the query (the loop compares
`url.len()` — the query's length — against `match_length` and stores `url.len()`
after the first hit, so no later record can ever displace it); for the empty
query URL the guard `url.len() > 0` is already false, so the result is `none`
for every store, including stores holding a credential with an empty URL. -/
theorem find_login_first_match (store : Logins) (url : Str) :
    store.find_login url =
      if 0 < url.length then store.logins.find? (fun l => List.isPrefixOf l.url url)
      else none := by
  by_cases h : 0 < url.length
  · rw [if_pos h]
    exact findLoginGo_nonempty url h store.logins
  · rw [if_neg h]
    exact findLoginGo_stuck url store.logins none 0 (Nat.le_of_not_lt h)

/-- C1 (failing input): with the store `[{url := "a"}, {url := "ab"}]` and query
`"ab"`, both stored URLs are prefixes of the query and `"ab"` is strictly
longer, yet `find_login` returns the record with URL `"a"` — the first match,
not the one with the greatest matching prefix length that the spec demands. -/
theorem find_login_not_longest_prefix :
    (Logins.mk [⟨"a".data, "u1".data, "p1".data⟩,
        ⟨"ab".data, "u2".data, "p2".data⟩]).find_login "ab".data
        = some ⟨"a".data, "u1".data, "p1".data⟩
      ∧ List.isPrefixOf "a".data "ab".data = true
      ∧ List.isPrefixOf "ab".data "ab".data = true
      ∧ "a".data.length < "ab".data.length := by
  refine ⟨by decide, by decide, by decide, by decide⟩

/-! ### Lemmas about `set_login` -/

lemma setLoginGo_no_match (c : Login) (ls : List Login)
    (h : ∀ l ∈ ls, l.url ≠ c.url) :
    setLoginGo c ls = (ls ++ [c], none) := by
  induction ls with
  | nil => rfl
  | cons l rest ih =>
    rw [setLoginGo, if_neg (h l (List.mem_cons_self l rest)),
      ih (fun x hx => h x (List.mem_cons_of_mem l hx))]
    rfl

lemma setLoginGo_first_match (c : Login) (pre : List Login) (l : Login)
    (post : List Login) (hl : l.url = c.url) (hpre : ∀ x ∈ pre, x.url ≠ c.url) :
    setLoginGo c (pre ++ l :: post) = (pre ++ c :: post, some l) := by
  induction pre with
  | nil =>
    simp only [List.nil_append]
    rw [setLoginGo, if_pos hl]
  | cons p rest ih =>
    simp only [List.cons_append]
    rw [setLoginGo, if_neg (hpre p (List.mem_cons_self p rest)),
      ih (fun x hx => hpre x (List.mem_cons_of_mem p hx))]

/-- C7: `set_login` either appends the new record at the end, returning `none`
(when no stored record has the identical URL), or replaces the first record
carrying the identical URL and returns the previous value, leaving every other
record — before and after the replaced one — untouched; the store size grows by
one in the first case and is unchanged in the second. -/
theorem set_login_spec (store : Logins) (c : Login) :
    ((∀ l ∈ store.logins, l.url ≠ c.url) →
        store.set_login c = (⟨store.logins ++ [c]⟩, none)
          ∧ (store.set_login c).1.logins.length = store.logins.length + 1)
    ∧ (∀ pre l post, store.logins = pre ++ l :: post → l.url = c.url →
        (∀ x ∈ pre, x.url ≠ c.url) →
        store.set_login c = (⟨pre ++ c :: post⟩, some l)
          ∧ (store.set_login c).1.logins.length = store.logins.length) := by
  constructor
  · intro h
    have hgo := setLoginGo_no_match c store.logins h
    constructor
    · simp [Logins.set_login, hgo]
    · simp [Logins.set_login, hgo]
  · intro pre l post hsplit hl hpre
    have hgo := setLoginGo_first_match c pre l post hl hpre
    constructor
    · simp [Logins.set_login, hsplit, hgo]
    · simp [Logins.set_login, hsplit, hgo]

/-- Witness for C7 at concrete inputs: appending a fresh URL and replacing an
existing one. -/
theorem set_login_spec_witness :
    (Logins.mk [⟨"x".data, "u".data, "p".data⟩]).set_login ⟨"y".data, "v".data, "q".data⟩
        = (⟨[⟨"x".data, "u".data, "p".data⟩, ⟨"y".data, "v".data, "q".data⟩]⟩, none)
      ∧ (Logins.mk [⟨"x".data, "u".data, "p".data⟩,
          ⟨"y".data, "v".data, "q".data⟩]).set_login ⟨"y".data, "v2".data, "q2".data⟩
        = (⟨[⟨"x".data, "u".data, "p".data⟩, ⟨"y".data, "v2".data, "q2".data⟩]⟩,
            some ⟨"y".data, "v".data, "q".data⟩) := by
  constructor
  · exact ((set_login_spec ⟨[⟨"x".data, "u".data, "p".data⟩]⟩
      ⟨"y".data, "v".data, "q".data⟩).1 (by decide)).1
  · exact ((set_login_spec ⟨[⟨"x".data, "u".data, "p".data⟩,
        ⟨"y".data, "v".data, "q".data⟩]⟩ ⟨"y".data, "v2".data, "q2".data⟩).2
      [⟨"x".data, "u".data, "p".data⟩] ⟨"y".data, "v".data, "q".data⟩ []
      rfl rfl (by decide)).1

/-- C6: loading the credential store from a path with no file succeeds with the
empty store, for every deserializer; a file that exists but fails to
deserialize yields a `Deserialize` error. -/
theorem read_logins_file_lenient (path : Str) (parse : Str → Except Str Logins) :
    read_logins_file path .missing parse = .ok ⟨[]⟩
    ∧ (∀ s e, parse s = .error e →
        read_logins_file path (.content s) parse = .error (.Deserialize e path)) := by
  refine ⟨rfl, fun s e he => ?_⟩
  simp [read_logins_file, he]

/-- Witness for C6: a concrete always-failing deserializer. -/
theorem read_logins_file_lenient_witness :
    read_logins_file "cfg".data .missing (fun _ => .error "bad".data) = .ok ⟨[]⟩
    ∧ read_logins_file "cfg".data (.content "junk".data) (fun _ => .error "bad".data)
      = .error (.Deserialize "bad".data "cfg".data) :=
  ⟨(read_logins_file_lenient "cfg".data (fun _ => .error "bad".data)).1,
    (read_logins_file_lenient "cfg".data (fun _ => .error "bad".data)).2
      "junk".data "bad".data rfl⟩

/-! ### Lemmas about the archive scan -/

lemma findJar_go (pattern : Str) (names : List Str) (acc : Option Str) :
    names.foldl
        (fun found name => if List.isSuffixOf pattern name then some name else found)
        acc
      = ((names.filter (fun n => List.isSuffixOf pattern n)).getLast?).elim acc some := by
  induction names using List.reverseRecOn with
  | nil => rfl
  | append_singleton ns n ih =>
    rw [List.foldl_append, List.foldl_cons, List.foldl_nil, ih, List.filter_append]
    by_cases hp : List.isSuffixOf pattern n = true
    · simp [hp, List.filter_cons, List.getLast?_concat]
    · simp [hp, List.filter_cons]

lemma findJar_eq (pattern : Str) (names : List Str) :
    findJar pattern names
      = (names.filter (fun n => List.isSuffixOf pattern n)).getLast? := by
  rw [findJar, findJar_go]
  cases (names.filter (fun n => List.isSuffixOf pattern n)).getLast? <;> rfl

lemma find?_by_name (entries : List ZipEntry) (e : ZipEntry)
    (hnodup : (entries.map ZipEntry.name).Nodup) (he : e ∈ entries) :
    entries.find? (fun x => x.name = e.name) = some e := by
  induction entries with
  | nil => cases he
  | cons a rest ih =>
    rw [List.map_cons, List.nodup_cons] at hnodup
    by_cases hname : a.name = e.name
    · have hae : a = e := by
        rcases List.mem_cons.mp he with h | h
        · exact h.symm
        · exact absurd (hname ▸ List.mem_map_of_mem ZipEntry.name h) hnodup.1
      rw [List.find?_cons_of_pos (p := fun x => decide (x.name = e.name)) rest
        (by simp [hname]), hae]
    · have hmem : e ∈ rest := by
        rcases List.mem_cons.mp he with h | h
        · exact absurd (h ▸ rfl) hname
        · exact h
      rw [List.find?_cons_of_neg (p := fun x => decide (x.name = e.name)) rest
        (by simp [hname])]
      exact ih hnodup.2 hmem

/-- C2: scanning an archive keeps the *last* entry (in enumeration order) whose
name ends with the pattern; extraction then returns that entry's content
together with the final path segment of its name as the output filename.  When
no entry name ends with the pattern the result is `none`.  The entry names are
assumed pairwise distinct (`by_name` retrieves entries by exact name), and the
matched name must possess a filename component. -/
theorem get_artifact_gitlab_last_match (entries : List ZipEntry) (pattern : Str) :
    ((entries.filter (fun e => List.isSuffixOf pattern e.name)).getLast? = none →
        get_artifact_gitlab entries pattern = .ok none)
    ∧ (∀ e fname,
        (entries.filter (fun e => List.isSuffixOf pattern e.name)).getLast? = some e →
        (entries.map ZipEntry.name).Nodup →
        fileNameComponent? e.name = some fname →
        get_artifact_gitlab entries pattern = .ok (some ⟨fname, e.data⟩)) := by
  have hmapfilter :
      (entries.map ZipEntry.name).filter (fun n => List.isSuffixOf pattern n)
        = (entries.filter (fun e => List.isSuffixOf pattern e.name)).map ZipEntry.name := by
    induction entries with
    | nil => rfl
    | cons a rest ih =>
      by_cases hp : List.isSuffixOf pattern a.name = true
      · simp [List.filter_cons, hp, ih]
      · simp [List.filter_cons, hp, ih]
  constructor
  · intro hnone
    rw [get_artifact_gitlab, findJar_eq, hmapfilter, List.getLast?_map, hnone]
    rfl
  · intro e fname hlast hnodup hcomp
    have hjar : findJar pattern (entries.map ZipEntry.name) = some e.name := by
      rw [findJar_eq, hmapfilter, List.getLast?_map, hlast]
      rfl
    have hmemfilter : e ∈ entries.filter (fun e => List.isSuffixOf pattern e.name) := by
      have hin : e ∈ (entries.filter (fun e => List.isSuffixOf pattern e.name)).getLast? := by
        rw [hlast]
        rfl
      rcases List.mem_getLast?_eq_getLast hin with ⟨hne, heq⟩
      exact heq ▸ List.getLast_mem hne
    have hmem : e ∈ entries := List.mem_of_mem_filter hmemfilter
    have hext : extract_file entries e.name = .ok ⟨fname, e.data⟩ := by
      unfold extract_file
      rw [hcomp, find?_by_name entries e hnodup hmem]
    simp only [get_artifact_gitlab, hjar, hext]

/-- Witness for C2: the spec's concrete archive `["a/x.jar", "b/target.jar",
"c/target.jar"]` with pattern `"target.jar"` yields the content and basename of
`c/target.jar`; a pattern matching nothing yields `none`. -/
theorem get_artifact_gitlab_last_match_witness :
    get_artifact_gitlab
        [⟨"a/x.jar".data, [1]⟩, ⟨"b/target.jar".data, [2]⟩, ⟨"c/target.jar".data, [3]⟩]
        "target.jar".data
      = .ok (some ⟨"target.jar".data, [3]⟩)
    ∧ get_artifact_gitlab
        [⟨"a/x.jar".data, [1]⟩, ⟨"b/target.jar".data, [2]⟩, ⟨"c/target.jar".data, [3]⟩]
        "zzz".data
      = .ok none := by
  constructor
  · exact (get_artifact_gitlab_last_match
        [⟨"a/x.jar".data, [1]⟩, ⟨"b/target.jar".data, [2]⟩, ⟨"c/target.jar".data, [3]⟩]
        "target.jar".data).2
      ⟨"c/target.jar".data, [3]⟩ "target.jar".data
      (by decide) (by decide) (by decide)
  · exact (get_artifact_gitlab_last_match
        [⟨"a/x.jar".data, [1]⟩, ⟨"b/target.jar".data, [2]⟩, ⟨"c/target.jar".data, [3]⟩]
        "zzz".data).1 (by decide)

/-- C3: when extraction succeeds, an existing stored file with equal digest
yields `UpToDate` and leaves the store untouched; an absent file or a digest
mismatch yields `NewArtifact` and stores the new bytes.  Consequently fetching
byte-identical content twice (starting from an absent file) yields
`NewArtifact` then `UpToDate`, and content hashing differently afterwards
yields `NewArtifact` again and overwrites. -/
theorem get_artifact_dedup (hash : Bytes → Bytes) (store : Str → Option Bytes)
    (art : FileData) :
    (∀ ex, store art.file_name = some ex → hash ex = hash art.data →
        get_artifact hash store (some art) = (.UpToDate art.file_name, store))
    ∧ (store art.file_name = none →
        (get_artifact hash store (some art)).1 = .NewArtifact art.file_name
          ∧ (get_artifact hash store (some art)).2 art.file_name = some art.data)
    ∧ (∀ ex, store art.file_name = some ex → hash ex ≠ hash art.data →
        (get_artifact hash store (some art)).1 = .NewArtifact art.file_name
          ∧ (get_artifact hash store (some art)).2 art.file_name = some art.data)
    ∧ (store art.file_name = none → ∀ art2 : FileData,
        art2.file_name = art.file_name → art2.data = art.data →
        get_artifact hash ((get_artifact hash store (some art)).2) (some art2)
          = (.UpToDate art.file_name, (get_artifact hash store (some art)).2))
    ∧ (store art.file_name = none → ∀ art3 : FileData,
        art3.file_name = art.file_name → hash art3.data ≠ hash art.data →
        (get_artifact hash ((get_artifact hash store (some art)).2) (some art3)).1
            = .NewArtifact art.file_name
          ∧ (get_artifact hash ((get_artifact hash store (some art)).2) (some art3)).2
              art.file_name = some art3.data) := by
  refine ⟨?_, ?_, ?_, ?_, ?_⟩
  · intro ex hex heq
    simp [get_artifact, is_new, hex, heq]
  · intro habs
    simp [get_artifact, is_new, habs]
  · intro ex hex hne
    simp [get_artifact, is_new, hex, hne]
  · intro habs art2 hname hdata
    have h1 : get_artifact hash store (some art)
        = (.NewArtifact art.file_name,
            fun n => if n = art.file_name then some art.data else store n) := by
      simp [get_artifact, is_new, habs]
    rw [h1]
    simp [get_artifact, is_new, hname, hdata]
  · intro habs art3 hname hne
    have hne' : ¬ hash art.data = hash art3.data := fun h => hne h.symm
    have h1 : get_artifact hash store (some art)
        = (.NewArtifact art.file_name,
            fun n => if n = art.file_name then some art.data else store n) := by
      simp [get_artifact, is_new, habs]
    rw [h1]
    constructor
    · simp [get_artifact, is_new, hname, hne, hne']
    · simp [get_artifact, is_new, hname, hne, hne']

/-- Witness for C3 with the identity digest and an initially empty store:
fetching `[1, 2]` as `f` is new, refetching it is up to date, and fetching
changed bytes `[9, 2]` is new again with the bytes replaced. -/
theorem get_artifact_dedup_witness :
    (get_artifact (fun b => b) (fun _ => none) (some ⟨"f".data, [1, 2]⟩)).1
        = .NewArtifact "f".data
    ∧ get_artifact (fun b => b)
        ((get_artifact (fun b => b) (fun _ => none) (some ⟨"f".data, [1, 2]⟩)).2)
        (some ⟨"f".data, [1, 2]⟩)
      = (.UpToDate "f".data,
          (get_artifact (fun b => b) (fun _ => none) (some ⟨"f".data, [1, 2]⟩)).2)
    ∧ (get_artifact (fun b => b)
        ((get_artifact (fun b => b) (fun _ => none) (some ⟨"f".data, [1, 2]⟩)).2)
        (some ⟨"f".data, [9, 2]⟩)).1 = .NewArtifact "f".data
    ∧ (get_artifact (fun b => b)
        ((get_artifact (fun b => b) (fun _ => none) (some ⟨"f".data, [1, 2]⟩)).2)
        (some ⟨"f".data, [9, 2]⟩)).2 "f".data = some [9, 2] := by
  refine ⟨?_, ?_, ?_, ?_⟩
  · exact ((get_artifact_dedup (fun b => b) (fun _ => none) ⟨"f".data, [1, 2]⟩).2.1 rfl).1
  · exact (get_artifact_dedup (fun b => b) (fun _ => none) ⟨"f".data, [1, 2]⟩).2.2.2.1
      rfl ⟨"f".data, [1, 2]⟩ rfl rfl
  · exact ((get_artifact_dedup (fun b => b) (fun _ => none) ⟨"f".data, [1, 2]⟩).2.2.2.2
      rfl ⟨"f".data, [9, 2]⟩ rfl (by decide)).1
  · exact ((get_artifact_dedup (fun b => b) (fun _ => none) ⟨"f".data, [1, 2]⟩).2.2.2.2
      rfl ⟨"f".data, [9, 2]⟩ rfl (by decide)).2

/-! ### Lemmas about `fetch_all` and `fetch_single` -/

lemma collect_append
    (stp : SourceConfig → ArtifactConfig → Except ErdError GetArtifactAnswer)
    (l₁ l₂ : List (SourceConfig × ArtifactConfig)) :
    collect stp (l₁ ++ l₂) =
      match collect stp l₁ with
      | .error e => .error e
      | .ok xs =>
        match collect stp l₂ with
        | .error e => .error e
        | .ok ys => .ok (xs ++ ys) := by
  induction l₁ with
  | nil =>
    rw [List.nil_append]
    cases h₂ : collect stp l₂ <;> simp [collect, h₂]
  | cons sa rest ih =>
    rw [List.cons_append]
    simp only [collect]
    rw [ih]
    cases stp sa.1 sa.2 with
    | error e => rfl
    | ok ans =>
      cases collect stp rest with
      | error e => rfl
      | ok xs =>
        cases collect stp l₂ <;> rfl

lemma fetch_all_inner_eq_collect
    (getArt : ArtifactConfig → SourceType → Str → Option Str →
      Except ErdError GetArtifactAnswer)
    (logins : Logins) (s : SourceConfig) (arts : List ArtifactConfig) :
    fetch_all_inner getArt logins s arts
      = collect (fetchStep getArt logins) (arts.map (fun a => (s, a))) := by
  induction arts with
  | nil => rfl
  | cons a rest ih =>
    simp only [fetch_all_inner, List.map_cons, collect, fetchStep, ih]
    cases logins.find_login s.url with
    | none => rfl
    | some login =>
      cases getArt a s.kind login.password none <;> rfl

lemma fetch_all_outer_eq_collect
    (getArt : ArtifactConfig → SourceType → Str → Option Str →
      Except ErdError GetArtifactAnswer)
    (logins : Logins) (ss : List SourceConfig) :
    fetch_all_outer getArt logins ss
      = collect (fetchStep getArt logins)
          ((ss.map (fun s => s.artifacts.map (fun a => (s, a)))).flatten) := by
  induction ss with
  | nil => rfl
  | cons s rest ih =>
    simp only [fetch_all_outer, List.map_cons, List.flatten_cons, collect_append,
      fetch_all_inner_eq_collect, ih]

lemma fetch_all_eq_collect
    (getArt : ArtifactConfig → SourceType → Str → Option Str →
      Except ErdError GetArtifactAnswer)
    (config : Config) (logins : Logins) :
    fetch_all getArt config logins
      = collect (fetchStep getArt logins) (configPairs config) :=
  fetch_all_outer_eq_collect getArt logins config.sources

lemma collect_ok_of_pointwise
    (stp : SourceConfig → ArtifactConfig → Except ErdError GetArtifactAnswer)
    (l : List (SourceConfig × ArtifactConfig))
    (ansOf : SourceConfig × ArtifactConfig → GetArtifactAnswer)
    (h : ∀ sa ∈ l, stp sa.1 sa.2 = .ok (ansOf sa)) :
    collect stp l = .ok (l.map (fun sa => (sa.2.id, ansOf sa))) := by
  induction l with
  | nil => rfl
  | cons sa rest ih =>
    rw [collect, h sa (List.mem_cons_self sa rest),
      ih (fun x hx => h x (List.mem_cons_of_mem sa hx))]
    rfl

lemma collect_error_at
    (stp : SourceConfig → ArtifactConfig → Except ErdError GetArtifactAnswer)
    (pre : List (SourceConfig × ArtifactConfig)) (sa : SourceConfig × ArtifactConfig)
    (post : List (SourceConfig × ArtifactConfig)) (e : ErdError)
    (hpre : ∀ x ∈ pre, ∃ ans, stp x.1 x.2 = .ok ans)
    (hsa : stp sa.1 sa.2 = .error e) :
    collect stp (pre ++ sa :: post) = .error e := by
  induction pre with
  | nil =>
    rw [List.nil_append, collect, hsa]
  | cons x rest ih =>
    obtain ⟨ans, hans⟩ := hpre x (List.mem_cons_self x rest)
    rw [List.cons_append, collect, hans,
      ih (fun y hy => hpre y (List.mem_cons_of_mem x hy))]

/-- C4: `fetch_all` visits every artifact of every source in configuration
order.  When every per-artifact step (credential resolution followed by the
fetch) succeeds, it returns the `(artifact id, outcome)` pairs in exactly that
order, whatever the individual outcomes are; when some step fails, the whole
call returns the error of the first failing pair and no partial list. -/
theorem fetch_all_spec
    (getArt : ArtifactConfig → SourceType → Str → Option Str →
      Except ErdError GetArtifactAnswer)
    (config : Config) (logins : Logins) :
    (∀ ansOf : SourceConfig × ArtifactConfig → GetArtifactAnswer,
      (∀ sa ∈ configPairs config, fetchStep getArt logins sa.1 sa.2 = .ok (ansOf sa)) →
      fetch_all getArt config logins
        = .ok ((configPairs config).map (fun sa => (sa.2.id, ansOf sa))))
    ∧ (∀ pre sa post e, configPairs config = pre ++ sa :: post →
        (∀ x ∈ pre, ∃ ans, fetchStep getArt logins x.1 x.2 = .ok ans) →
        fetchStep getArt logins sa.1 sa.2 = .error e →
        fetch_all getArt config logins = .error e) := by
  constructor
  · intro ansOf h
    rw [fetch_all_eq_collect]
    exact collect_ok_of_pointwise _ _ ansOf h
  · intro pre sa post e hsplit hpre hsa
    rw [fetch_all_eq_collect, hsplit]
    exact collect_error_at _ pre sa post e hpre hsa

/-- Witness for C4: on the sample configuration all three artifacts succeed in
source-then-artifact order, and a failure at the second artifact aborts the
whole call with that error. -/
theorem fetch_all_spec_witness :
    fetch_all fetchOkStub sampleConfig sampleLogins
        = .ok [("a1".data, .NewArtifact "a1".data), ("a2".data, .NewArtifact "a2".data),
            ("b1".data, .NewArtifact "b1".data)]
    ∧ fetch_all fetchFailStub sampleConfig sampleLogins
        = .error (.InvalidToken "bad".data) := by
  constructor
  · exact (fetch_all_spec fetchOkStub sampleConfig sampleLogins).1
      (fun sa => .NewArtifact sa.2.id)
      (by intro sa hsa; fin_cases hsa <;> rfl)
  · exact (fetch_all_spec fetchFailStub sampleConfig sampleLogins).2
      [(sampleS1, sampleA1)] (sampleS1, sampleA2) [(sampleS2, sampleB1)]
      (.InvalidToken "bad".data) rfl
      (by intro x hx; fin_cases hx; exact ⟨.NewArtifact "a1".data, rfl⟩) rfl

/-! ### Lemmas about `fetch_single` -/

lemma find?_eq_filter_head? {α : Type} (p : α → Bool) (l : List α) :
    l.find? p = (l.filter p).head? := by
  induction l with
  | nil => rfl
  | cons a rest ih =>
    cases hp : p a with
    | true =>
      rw [List.find?_cons_of_pos (p := p) rest hp, List.filter_cons_of_pos hp,
        List.head?_cons]
    | false =>
      rw [List.find?_cons_of_neg (p := p) rest (by simp [hp]),
        List.filter_cons_of_neg (by simp [hp]), ih]

lemma filter_of_map {α β : Type} (f : α → β) (p : β → Bool) (l : List α) :
    (l.map f).filter p = (l.filter (fun a => p (f a))).map f := by
  induction l with
  | nil => rfl
  | cons a rest ih =>
    rw [List.map_cons, List.filter_cons, List.filter_cons]
    cases hp : p (f a) with
    | true => simp [hp, ih]
    | false => simp [hp, ih]

lemma findSome?_pairs (artId : Str) (ss : List SourceConfig) :
    ss.findSome?
        (fun s => (s.artifacts.find? (fun a => a.id = artId)).map (fun a => (s, a)))
      = (((ss.map (fun s => s.artifacts.map (fun a => (s, a)))).flatten).filter
          (fun sa => sa.2.id = artId)).head? := by
  induction ss with
  | nil => rfl
  | cons s rest ih =>
    rw [List.findSome?_cons, List.map_cons, List.flatten_cons, List.filter_append,
      List.head?_append, filter_of_map, find?_eq_filter_head?, List.head?_map]
    cases hh : (s.artifacts.filter (fun a => a.id = artId)).head? with
    | some a => simp
    | none => simp [ih]

/-- C5: `fetch_single` selects the first (source, artifact) pair in
configuration order whose artifact id matches; with no match it fails with
`NoSuchArtifact` — for every credential store and every fetch function, i.e.
before any credential resolution or network interaction. -/
theorem fetch_single_spec
    (getArt : ArtifactConfig → SourceType → Str → Option Str →
      Except ErdError GetArtifactAnswer)
    (config : Config) (logins : Logins) (artId : Str) (buildId : Option Str) :
    (fetch_single getArt config logins artId buildId =
      match ((configPairs config).filter (fun sa => sa.2.id = artId)).head? with
      | none => .error (.NoSuchArtifact artId)
      | some (s, a) =>
        match logins.find_login s.url with
        | some login => getArt a s.kind login.password buildId
        | none => .error (.NoLogin s.url))
    ∧ (((configPairs config).filter (fun sa => sa.2.id = artId)).head? = none →
        fetch_single getArt config logins artId buildId
          = .error (.NoSuchArtifact artId)) := by
  have heq : fetch_single getArt config logins artId buildId =
      match ((configPairs config).filter (fun sa => sa.2.id = artId)).head? with
      | none => .error (.NoSuchArtifact artId)
      | some (s, a) =>
        match logins.find_login s.url with
        | some login => getArt a s.kind login.password buildId
        | none => .error (.NoLogin s.url) := by
    unfold fetch_single configPairs
    rw [findSome?_pairs]
    rfl
  refine ⟨heq, fun hnone => ?_⟩
  rw [heq, hnone]

/-- Witness for C5: an unknown artifact id fails with `NoSuchArtifact`, and a
duplicated id resolves to the pair of the first source in configuration
order. -/
theorem fetch_single_spec_witness :
    fetch_single fetchOkStub sampleConfig sampleLogins "nope".data none
        = .error (.NoSuchArtifact "nope".data)
    ∧ fetch_single fetchTagStub dupConfig sampleLogins "d".data none
        = .ok (.NewArtifact "pd1".data) := by
  constructor
  · exact (fetch_single_spec fetchOkStub sampleConfig sampleLogins
      "nope".data none).2 rfl
  · have h := (fetch_single_spec fetchTagStub dupConfig sampleLogins
      "d".data none).1
    rw [h]
    rfl

/-- C8 (failing input): for the artifact of project `123` and ref `999`, with
the created pipeline reported as id `777`, the first issued request is the
pipeline-creation POST with the ref parameter (as the claim says), but the
second — meant to list the jobs of the new pipeline — is a GET of
`projects/777/pipeline`: the *pipeline* id occupies the project position and
the path is the pipeline-creation endpoint, not the job listing of pipeline
`777` within project `123`. -/
theorem rebuild_requests_wrong_endpoint :
    rebuild_requests ⟨"art".data, "123".data, "main".data, "p.jar".data⟩ "999".data
        ⟨777, "created".data, "999".data, "w".data⟩
      = [⟨.post, "https://gitlab.com/api/v4/projects/123/pipeline".data,
            [("ref".data, "999".data)]⟩,
          ⟨.get, "https://gitlab.com/api/v4/projects/777/pipeline".data, []⟩]
    ∧ "https://gitlab.com/api/v4/projects/777/pipeline".data
        ≠ "https://gitlab.com/api/v4/projects/123/pipelines/777/jobs".data := by
  exact ⟨by decide, by decide⟩

/-- C9: the short rendering is exactly the long rendering of the records
surviving the fixed-job-name filter (`"build"`), re-tagged with the short
options — both detail levels project each record through the same
`format_output`; the long form renders every record, the short form skips
those whose name differs from the constant. -/
theorem show_history_short_long (job_history : List JobHistory) :
    show_history_short historyJobName job_history
      = (show_history_long (job_history.filter
          (fun j => j.name = historyJobName))).map
            (fun out => { out with options := ⟨true, true⟩ })
    ∧ show_history_long job_history
      = job_history.map (fun job => job.format_output ⟨true, false⟩) := by
  refine ⟨?_, rfl⟩
  induction job_history with
  | nil => rfl
  | cons entry rest ih =>
    by_cases hname : entry.name = historyJobName
    · rw [show_history_short, if_neg (by simpa using hname),
        List.filter_cons_of_pos (by simpa using hname)]
      simp only [show_history_long, List.map_cons] at ih ⊢
      rw [ih]
      simp [JobHistory.format_output]
    · rw [show_history_short, if_pos (by simpa using hname),
        List.filter_cons_of_neg (by simpa using hname)]
      exact ih

end Erd
